import Mathlib

/-!
Shallow embedding of the tinyraytracer-rs core (src/geometry.rs, src/materials.rs,
src/main.rs) over the real numbers, together with theorems settling the frozen
claims about the renderer.  The f32 arithmetic of the source is idealised as real
arithmetic; Rust function and field names are kept wherever Lean allows it.
-/

namespace TinyRT

/-- Three-component vector, embedding Vec3 from geometry.rs with f32 idealised as a real. -/
structure Vec3 where
  x : ℝ
  y : ℝ
  z : ℝ

/-- Modelled from the spec: a 2-component float vector (geometry.rs of the provided
sources does not contain the Vec2 declaration that materials.rs and main.rs import;
the spec describes 2- and 3-component float vectors with componentwise arithmetic). -/
structure Vec2 where
  x : ℝ
  y : ℝ

/-- Componentwise addition, embedding the Add impl of geometry.rs. -/
noncomputable instance : Add Vec3 := ⟨fun a b => ⟨a.x + b.x, a.y + b.y, a.z + b.z⟩⟩

/-- Componentwise subtraction, embedding the Sub impl of geometry.rs. -/
noncomputable instance : Sub Vec3 := ⟨fun a b => ⟨a.x - b.x, a.y - b.y, a.z - b.z⟩⟩

/-- Modelled from the spec: vector negation (main.rs negates vectors, e.g.
-light_direction; the corresponding Neg impl is not among the provided sources;
negation is componentwise / scaling by -1). -/
noncomputable instance : Neg Vec3 := ⟨fun a => ⟨-a.x, -a.y, -a.z⟩⟩

/-- Scalar multiplication on the right, embedding the Mul impl of geometry.rs. -/
noncomputable instance : HMul Vec3 ℝ Vec3 := ⟨fun v s => ⟨v.x * s, v.y * s, v.z * s⟩⟩

/-- Scalar division, embedding the Div impl of geometry.rs. -/
noncomputable instance : HDiv Vec3 ℝ Vec3 := ⟨fun v s => ⟨v.x / s, v.y / s, v.z / s⟩⟩

/-- Vec3::default is the zero vector (geometry.rs). -/
instance : Inhabited Vec3 := ⟨⟨0, 0, 0⟩⟩

/-- Dot product of geometry.rs. -/
noncomputable def dot (a b : Vec3) : ℝ := a.x * b.x + a.y * b.y + a.z * b.z

/-- Vector length as in geometry.rs: sqrt of the self dot product. -/
noncomputable def Vec3.length (v : Vec3) : ℝ := Real.sqrt (dot v v)

/-- Normalisation as in geometry.rs: the vector divided by its own length. -/
noncomputable def Vec3.normalise (v : Vec3) : Vec3 := v / v.length

/-- Material of materials.rs: albedo weights, diffuse colour, specular exponent. -/
structure Material where
  albedo : Vec2
  diffuse_colour : Vec3
  specular_exponent : ℝ

/-- Material::default from materials.rs: albedo (1,0), colour (0.4,0.4,0.3), exponent 1. -/
noncomputable instance : Inhabited Material := ⟨⟨⟨1, 0⟩, ⟨2/5, 2/5, 3/10⟩, 1⟩⟩

/-- Ray of geometry.rs: origin and direction. -/
structure Ray where
  origin : Vec3
  direction : Vec3

/-- Sphere of geometry.rs: centre, radius and material. -/
structure Sphere where
  centre : Vec3
  radius : ℝ
  material : Material

/-- Light of main.rs: position and intensity. -/
structure Light where
  position : Vec3
  intensity : ℝ

/-- The local l of Sphere::ray_intersect: centre - origin. -/
noncomputable def sphL (s : Sphere) (r : Ray) : Vec3 := s.centre - r.origin

/-- The local tca of Sphere::ray_intersect: dot(l, direction). -/
noncomputable def tca (s : Sphere) (r : Ray) : ℝ := dot (sphL s r) r.direction

/-- The local d2 of Sphere::ray_intersect: dot(l,l) - tca^2. -/
noncomputable def d2 (s : Sphere) (r : Ray) : ℝ := dot (sphL s r) (sphL s r) - tca s r * tca s r

/-- The local thc of Sphere::ray_intersect: sqrt(radius^2 - d2). -/
noncomputable def thc (s : Sphere) (r : Ray) : ℝ :=
  Real.sqrt (s.radius * s.radius - d2 s r)

/-- Sphere::ray_intersect from geometry.rs.  The source computes t0 = tca - thc and
t1 = tca + thc, replaces t0 by t1 when t0 is negative, and reports no hit when the
selected distance is still negative. -/
noncomputable def ray_intersect (s : Sphere) (r : Ray) : Option ℝ :=
  if d2 s r > s.radius * s.radius then none
  else if tca s r - thc s r < 0 then
    if tca s r + thc s r < 0 then none else some (tca s r + thc s r)
  else some (tca s r - thc s r)

/-- The largest finite f32, the initial spheres_distance of scene_intersect. -/
noncomputable def f32_MAX : ℝ := (2 - (1/2) ^ 23) * 2 ^ 127

/-- The data recorded by the scene_intersect loop body when a nearer sphere is found:
distance, hit point origin + direction * distance, outward normal, material. -/
noncomputable def hitData (r : Ray) (s : Sphere) (d : ℝ) : ℝ × Vec3 × Vec3 × Material :=
  (d, r.origin + r.direction * d,
   ((r.origin + r.direction * d) - s.centre).normalise, s.material)

/-- The body of the for-loop of scene_intersect in main.rs for one sphere: when the
sphere is hit strictly nearer than the best distance so far, record its hit data,
otherwise keep the accumulator. -/
noncomputable def loopStep (r : Ray) (acc : ℝ × Vec3 × Vec3 × Material) (s : Sphere) :
    ℝ × Vec3 × Vec3 × Material :=
  match ray_intersect s r with
  | some d => if d < acc.1 then hitData r s d else acc
  | none => acc

/-- The for-loop of scene_intersect in main.rs: fold over the sphere list keeping
the strictly smallest intersection distance seen so far together with its hit data. -/
noncomputable def scene_intersect_loop (r : Ray) :
    List Sphere → ℝ × Vec3 × Vec3 × Material → ℝ × Vec3 × Vec3 × Material
  | [], acc => acc
  | s :: rest, acc => scene_intersect_loop r rest (loopStep r acc s)

/-- scene_intersect from main.rs: run the loop from (f32::MAX, default, default,
default) and return the hit data when the final distance is below 1000. -/
noncomputable def scene_intersect (r : Ray) (spheres : List Sphere) :
    Option (Vec3 × Vec3 × Material) :=
  let acc := scene_intersect_loop r spheres (f32_MAX, default, default, default)
  if acc.1 < 1000 then some acc.2 else none

/-- Modelled from the spec: mirror reflection reflect(v, n) = v - 2 dot(v,n) n
(main.rs imports reflect from geometry, whose declaration is not among the provided
sources; the spec states the formula explicitly). -/
noncomputable def reflect (v n : Vec3) : Vec3 := v - n * (2 * dot v n)

/-- Unit direction from the hit point to a light, as computed in cast_ray. -/
noncomputable def lightDir (point : Vec3) (l : Light) : Vec3 :=
  (l.position - point).normalise

/-- Distance from the hit point to a light, as computed in cast_ray. -/
noncomputable def lightDist (point : Vec3) (l : Light) : ℝ :=
  (l.position - point).length

/-- Shadow-ray origin of cast_ray: the hit point offset by 1e-3 along the normal,
sign chosen by the sign of dot(light_direction, normal). -/
noncomputable def shadowOrigin (point normal : Vec3) (l : Light) : Vec3 :=
  if dot (lightDir point l) normal < 0 then point - normal * ((1:ℝ)/1000)
  else point + normal * ((1:ℝ)/1000)

/-- The diffuse contribution of one light in cast_ray:
intensity * max(0, dot(light_direction, normal)). -/
noncomputable def diffuseTerm (point normal : Vec3) (l : Light) : ℝ :=
  l.intensity * max 0 (dot (lightDir point l) normal)

/-- The specular contribution of one light in cast_ray:
max(0, dot(-reflect(-light_direction, normal), ray.direction))^exponent * intensity.
The f32 powf is idealised as the real rpow; the two agree on the non-negative base
whenever the exponent is positive, and at base 0 with exponent 0 (both give 1), but
at base 0 with a negative exponent powf gives positive infinity where rpow gives 0,
so theorems about a zero specular term are stated for positive exponents only. -/
noncomputable def specularTerm (rdir point normal : Vec3) (e : ℝ) (l : Light) : ℝ :=
  max 0 (dot (-(reflect (-(lightDir point l)) normal)) rdir) ^ e * l.intensity

/-- The shadow test of cast_ray as a Bool: the shadow ray hits the scene at a point
whose distance from the shadow origin is below the distance to the light. -/
noncomputable def isOccluded (spheres : List Sphere) (point normal : Vec3) (l : Light) : Bool :=
  match scene_intersect ⟨shadowOrigin point normal l, lightDir point l⟩ spheres with
  | some (sp, _, _) =>
    decide ((sp - shadowOrigin point normal l).length < lightDist point l)
  | none => false

/-- The body of the light loop of cast_ray for one light: the pair of diffuse and
specular contributions, which is (0,0) when the source executes continue. -/
noncomputable def lightContrib (rdir : Vec3) (spheres : List Sphere)
    (point normal : Vec3) (e : ℝ) (l : Light) : ℝ × ℝ :=
  match scene_intersect ⟨shadowOrigin point normal l, lightDir point l⟩ spheres with
  | some (sp, _, _) =>
    if (sp - shadowOrigin point normal l).length < lightDist point l then (0, 0)
    else (diffuseTerm point normal l, specularTerm rdir point normal e l)
  | none => (diffuseTerm point normal l, specularTerm rdir point normal e l)

/-- The light loop of cast_ray: accumulate diffuse and specular intensities over
the light list, starting from (0,0). -/
noncomputable def lightSums (rdir : Vec3) (spheres : List Sphere)
    (point normal : Vec3) (e : ℝ) (lights : List Light) : ℝ × ℝ :=
  lights.foldl
    (fun acc l =>
      (acc.1 + (lightContrib rdir spheres point normal e l).1,
       acc.2 + (lightContrib rdir spheres point normal e l).2)) (0, 0)

/-- cast_ray from main.rs: on a scene hit, combine the accumulated diffuse and
specular intensities with the material; on a miss return no colour. -/
noncomputable def cast_ray (r : Ray) (spheres : List Sphere) (lights : List Light) :
    Option Vec3 :=
  match scene_intersect r spheres with
  | some (point, normal, material) =>
    some (material.diffuse_colour
            * (lightSums r.direction spheres point normal material.specular_exponent lights).1
            * material.albedo.x
          + (⟨1, 1, 1⟩ : Vec3)
            * (lightSums r.direction spheres point normal material.specular_exponent lights).2
            * material.albedo.y)
  | none => none

/-- BACKGROUND_COLOUR of main.rs: (0.2, 0.7, 0.8). -/
noncomputable def BACKGROUND_COLOUR : Vec3 := ⟨1/5, 7/10, 4/5⟩

/-- clamp from main.rs. -/
noncomputable def clamp (x mn mx : ℝ) : ℝ :=
  if x < mn then mn else if x > mx then mx else x

/-- The Rust saturating cast of a float to u8 used by clamp_to_u8: negative values
go to 0, values above 255 go to 255, and the rest truncate toward zero (on
non-negative reals, the floor).  The result is kept as an integer. -/
noncomputable def f32_to_u8 (v : ℝ) : ℤ :=
  if v < 0 then 0 else if 255 < v then 255 else ⌊v⌋

/-- clamp_to_u8 from main.rs: (255 * clamp(x, min, max)) as u8. -/
noncomputable def clamp_to_u8 (x mn mx : ℝ) : ℤ :=
  f32_to_u8 (255 * clamp x mn mx)

/-- The tone mapper of render in main.rs: rescale all channels by 1/max when the
largest channel exceeds 1, then clamp each channel to [0,1] and quantize. -/
noncomputable def tonemap (v : Vec3) : ℤ × ℤ × ℤ :=
  let mx := max v.x (max v.y v.z)
  let w := if mx > 1 then v * (1 / mx) else v
  (clamp_to_u8 w.x 0 1, clamp_to_u8 w.y 0 1, clamp_to_u8 w.z 0 1)

/-- Modelled from the spec (tone mapping, rescale then clamp then quantize 255 *
channel): the same pipeline with the quantization written directly as the floor of
255 * clamped channel, used to compare the code's tone mapper against the spec. -/
noncomputable def tonemapRescaleClampQuantize (v : Vec3) : ℤ × ℤ × ℤ :=
  let mx := max v.x (max v.y v.z)
  let w := if mx > 1 then v * (1 / mx) else v
  (⌊255 * clamp w.x 0 1⌋, ⌊255 * clamp w.y 0 1⌋, ⌊255 * clamp w.z 0 1⌋)

/-- The colour render in main.rs gives one pixel: the tone-mapped cast_ray colour
on a hit, and the tone-mapped background colour otherwise (the canvas is cleared to
the tone-mapped BACKGROUND_COLOUR and only hit pixels are drawn over it). -/
noncomputable def render_pixel (r : Ray) (spheres : List Sphere) (lights : List Light) :
    ℤ × ℤ × ℤ :=
  match cast_ray r spheres lights with
  | some v => tonemap v
  | none => tonemap BACKGROUND_COLOUR

/-- The x component of the image-plane point for pixel column i in render:
(2 (i+0.5)/w - 1) * tan(FOV/2) * w / h. -/
noncomputable def pixel_x (W H : ℕ) (FOV : ℝ) (i : ℕ) : ℝ :=
  (2 * ((i : ℝ) + 1/2) / (W : ℝ) - 1) * Real.tan (FOV / 2) * (W : ℝ) / (H : ℝ)

/-- The y component of the image-plane point for pixel row j in render:
-(2 (j+0.5)/h - 1) * tan(FOV/2). -/
noncomputable def pixel_y (H : ℕ) (FOV : ℝ) (j : ℕ) : ℝ :=
  -(2 * ((j : ℝ) + 1/2) / (H : ℝ) - 1) * Real.tan (FOV / 2)

/-- The primary ray of render for pixel (i, j): origin (0,0,0) and direction
normalise (x, y, -1). -/
noncomputable def primary_ray (W H : ℕ) (FOV : ℝ) (i j : ℕ) : Ray :=
  ⟨⟨0, 0, 0⟩, (⟨pixel_x W H FOV i, pixel_y H FOV j, -1⟩ : Vec3).normalise⟩

/-- Componentwise non-negativity of a material's authoring constants. -/
def matNonneg (m : Material) : Prop :=
  0 ≤ m.albedo.x ∧ 0 ≤ m.albedo.y ∧ 0 ≤ m.diffuse_colour.x ∧
    0 ≤ m.diffuse_colour.y ∧ 0 ≤ m.diffuse_colour.z

/-- Concrete camera-style ray from the origin along -z, used in witnesses. -/
noncomputable def axisRay : Ray := ⟨⟨0, 0, 0⟩, ⟨0, 0, -1⟩⟩

/-- Concrete sphere of radius 2 centred at (0,0,-5), hit head-on by axisRay. -/
noncomputable def frontSphere : Sphere := ⟨⟨0, 0, -5⟩, 2, default⟩

/-- Concrete sphere centred at (0,0,5), entirely behind the origin of axisRay. -/
noncomputable def behindSphere : Sphere := ⟨⟨0, 0, 5⟩, 1, default⟩

/-- Material with unit albedo weights, white diffuse colour and specular exponent 0,
used to exhibit the zero-exponent specular edge case. -/
noncomputable def zeroExpMat : Material := ⟨⟨1, 1⟩, ⟨1, 1, 1⟩, 0⟩

/-- Sphere of radius 1 centred at (0,-1,-5); axisRay grazes it tangentially at
(0,0,-5) with outward normal (0,1,0). -/
noncomputable def tangentSphere : Sphere := ⟨⟨0, -1, -5⟩, 1, zeroExpMat⟩

/-- Light at (0,3,-1): seen from the hit point (0,0,-5) its unit direction is
(0, 3/5, 4/5) at distance 5. -/
noncomputable def sideLight : Light := ⟨⟨0, 3, -1⟩, 1⟩

/-- The ivory material of main.rs. -/
noncomputable def ivory : Material := ⟨⟨3/5, 3/10⟩, ⟨2/5, 2/5, 3/10⟩, 50⟩

/-- Sphere of radius 1 centred at (0,0,-5) with the ivory material. -/
noncomputable def ivorySphere : Sphere := ⟨⟨0, 0, -5⟩, 1, ivory⟩

/-- Surface sphere for the shadow witness: radius 2 centred at (0,0,-6), hit by
axisRay at (0,0,-4) with outward normal (0,0,1). -/
noncomputable def surfaceSphere : Sphere := ⟨⟨0, 0, -6⟩, 2, default⟩

/-- Occluding sphere for the shadow witness: radius 1 centred on the shadow ray at
(0, 5, -3999/1000). -/
noncomputable def occluderSphere : Sphere := ⟨⟨0, 5, -3999/1000⟩, 1, default⟩

/-- Light at (0,10,-4): seen from the hit point (0,0,-4) its unit direction is
(0,1,0) at distance 10, blocked by occluderSphere. -/
noncomputable def blockedLight : Light := ⟨⟨0, 10, -4⟩, 3/2⟩

/-- Red diffuse material used to distinguish tie-break winners. -/
noncomputable def redMat : Material := ⟨⟨1, 0⟩, ⟨1, 0, 0⟩, 1⟩

/-- Green diffuse material used to distinguish tie-break winners. -/
noncomputable def greenMat : Material := ⟨⟨1, 0⟩, ⟨0, 1, 0⟩, 1⟩

/-- First of two geometrically identical spheres (radius 1 at (0,0,-5)). -/
noncomputable def tieSphereA : Sphere := ⟨⟨0, 0, -5⟩, 1, redMat⟩

/-- Second of two geometrically identical spheres (radius 1 at (0,0,-5)). -/
noncomputable def tieSphereB : Sphere := ⟨⟨0, 0, -5⟩, 1, greenMat⟩

/-- Sphere of radius 1 centred at (0,0,-5) with the red material, for the
non-negativity witness. -/
noncomputable def redSphere : Sphere := ⟨⟨0, 0, -5⟩, 1, redMat⟩

/-- Components of a vector sum. -/
@[simp] theorem Vec3.add_def (a b : Vec3) : a + b = ⟨a.x + b.x, a.y + b.y, a.z + b.z⟩ := rfl

/-- Components of a vector difference. -/
@[simp] theorem Vec3.sub_def (a b : Vec3) : a - b = ⟨a.x - b.x, a.y - b.y, a.z - b.z⟩ := rfl

/-- Components of a negated vector. -/
@[simp] theorem Vec3.neg_def (a : Vec3) : -a = ⟨-a.x, -a.y, -a.z⟩ := rfl

/-- Components of a vector scaled on the right. -/
@[simp] theorem Vec3.hmul_def (v : Vec3) (s : ℝ) : v * s = ⟨v.x * s, v.y * s, v.z * s⟩ := rfl

/-- Components of a vector divided by a scalar. -/
@[simp] theorem Vec3.hdiv_def (v : Vec3) (s : ℝ) : v / s = ⟨v.x / s, v.y / s, v.z / s⟩ := rfl

/-- The square root of a product of a non-negative real with itself. -/
theorem sqrt_val {a b : ℝ} (hb : 0 ≤ b) (h : b * b = a) : Real.sqrt a = b := by
  rw [← h]
  exact Real.sqrt_mul_self hb

/-- The length of a vector evaluates through the square root of its self dot product. -/
theorem length_eval {v : Vec3} {L : ℝ} (hL : 0 ≤ L) (h : L * L = dot v v) :
    v.length = L := by
  rw [Vec3.length, sqrt_val hL h]

/-- Normalisation evaluates componentwise once the length is known. -/
theorem normalise_eval {v : Vec3} {L : ℝ} (hL : 0 ≤ L) (h : L * L = dot v v) :
    v.normalise = ⟨v.x / L, v.y / L, v.z / L⟩ := by
  rw [Vec3.normalise, length_eval hL h, Vec3.hdiv_def]

/-- thc is non-negative, being a square root. -/
theorem thc_nonneg (s : Sphere) (r : Ray) : 0 ≤ thc s r := Real.sqrt_nonneg _

/-- The defining square of thc, valid when the discriminant is non-negative. -/
theorem thc_sq (s : Sphere) (r : Ray) (h : d2 s r ≤ s.radius * s.radius) :
    thc s r * thc s r = s.radius * s.radius - d2 s r :=
  Real.mul_self_sqrt (by linarith)

/-- ray_intersect returns the near distance when it is non-negative. -/
theorem ray_intersect_entry (s : Sphere) (r : Ray)
    (h1 : ¬ d2 s r > s.radius * s.radius) (h2 : 0 ≤ tca s r - thc s r) :
    ray_intersect s r = some (tca s r - thc s r) := by
  rw [ray_intersect, if_neg h1, if_neg (not_lt.mpr h2)]

/-- ray_intersect returns the far distance when the near one is negative and the
far one is not. -/
theorem ray_intersect_exit (s : Sphere) (r : Ray)
    (h1 : ¬ d2 s r > s.radius * s.radius) (h2 : tca s r - thc s r < 0)
    (h3 : ¬ tca s r + thc s r < 0) :
    ray_intersect s r = some (tca s r + thc s r) := by
  rw [ray_intersect, if_neg h1, if_pos h2, if_neg h3]

/-- ray_intersect reports no hit when the closest approach misses the sphere. -/
theorem ray_intersect_miss (s : Sphere) (r : Ray)
    (h : d2 s r > s.radius * s.radius) : ray_intersect s r = none := by
  rw [ray_intersect, if_pos h]

/-- ray_intersect reports no hit when even the far distance is negative. -/
theorem ray_intersect_behind (s : Sphere) (r : Ray)
    (h2 : tca s r + thc s r < 0) : ray_intersect s r = none := by
  by_cases h1 : d2 s r > s.radius * s.radius
  · exact ray_intersect_miss s r h1
  · have hthc := thc_nonneg s r
    rw [ray_intersect, if_neg h1, if_pos (by linarith), if_pos h2]

/-- The initial loop distance f32::MAX is at least the render cull distance. -/
theorem f32_MAX_big : (1000 : ℝ) ≤ f32_MAX := by
  rw [f32_MAX]
  norm_num

/-- The distance component of the recorded hit data. -/
@[simp] theorem hitData_fst (r : Ray) (s : Sphere) (d : ℝ) : (hitData r s d).1 = d := rfl

/-- One loop step never increases the best distance. -/
theorem loopStep_fst_le (r : Ray) (acc : ℝ × Vec3 × Vec3 × Material) (s : Sphere) :
    (loopStep r acc s).1 ≤ acc.1 := by
  rw [loopStep]
  cases h : ray_intersect s r with
  | none => simp
  | some d =>
    by_cases hd : d < acc.1
    · simpa [hd] using le_of_lt hd
    · simp [hd]

/-- After a loop step the best distance is at most any hit distance of the stepped sphere. -/
theorem loopStep_fst_le_hit (r : Ray) (acc : ℝ × Vec3 × Vec3 × Material) (s : Sphere)
    (d : ℝ) (h : ray_intersect s r = some d) : (loopStep r acc s).1 ≤ d := by
  rw [loopStep, h]
  by_cases hd : d < acc.1
  · simp [hd]
  · simp [hd, not_lt.mp hd]

/-- A loop step either keeps the accumulator or records the stepped sphere's hit data. -/
theorem loopStep_cases (r : Ray) (acc : ℝ × Vec3 × Vec3 × Material) (s : Sphere) :
    loopStep r acc s = acc ∨
      ∃ d, ray_intersect s r = some d ∧ d < acc.1 ∧ loopStep r acc s = hitData r s d := by
  rw [loopStep]
  cases h : ray_intersect s r with
  | none => exact Or.inl rfl
  | some d =>
    by_cases hd : d < acc.1
    · exact Or.inr ⟨d, rfl, hd, by simp [hd]⟩
    · exact Or.inl (by simp [hd])

/-- A loop step keeps the accumulator when the sphere offers no strictly nearer hit. -/
theorem loopStep_id (r : Ray) (acc : ℝ × Vec3 × Vec3 × Material) (s : Sphere)
    (h : ∀ d, ray_intersect s r = some d → acc.1 ≤ d) : loopStep r acc s = acc := by
  rw [loopStep]
  cases hr : ray_intersect s r with
  | none => rfl
  | some d => simp [not_lt.mpr (h d hr)]

/-- The loop never increases the best distance. -/
theorem loop_fst_le (r : Ray) (l : List Sphere) (acc : ℝ × Vec3 × Vec3 × Material) :
    (scene_intersect_loop r l acc).1 ≤ acc.1 := by
  induction l generalizing acc with
  | nil => simp [scene_intersect_loop]
  | cons s rest ih =>
    rw [scene_intersect_loop]
    exact le_trans (ih (loopStep r acc s)) (loopStep_fst_le r acc s)

/-- The final best distance is at most every hit distance offered by the list. -/
theorem loop_fst_le_hits (r : Ray) (l : List Sphere) (acc : ℝ × Vec3 × Vec3 × Material) :
    ∀ s ∈ l, ∀ d, ray_intersect s r = some d → (scene_intersect_loop r l acc).1 ≤ d := by
  induction l generalizing acc with
  | nil => intro s hs; exact absurd hs (List.not_mem_nil s)
  | cons s0 rest ih =>
    intro s hs d hd
    rw [scene_intersect_loop]
    rcases List.mem_cons.mp hs with h | h
    · subst h
      exact le_trans (loop_fst_le r rest _) (loopStep_fst_le_hit r acc s d hd)
    · exact ih (loopStep r acc s0) s h d hd

/-- The loop result is the initial accumulator or the hit data of some listed sphere. -/
theorem loop_cases (r : Ray) (l : List Sphere) (acc : ℝ × Vec3 × Vec3 × Material) :
    scene_intersect_loop r l acc = acc ∨
      ∃ s ∈ l, ∃ d, ray_intersect s r = some d ∧
        scene_intersect_loop r l acc = hitData r s d := by
  induction l generalizing acc with
  | nil => exact Or.inl rfl
  | cons s0 rest ih =>
    rw [scene_intersect_loop]
    rcases loopStep_cases r acc s0 with hstep | ⟨d, hd, _, hstep⟩
    · rw [hstep]
      rcases ih acc with h | ⟨s, hs, d, hd, h⟩
      · exact Or.inl h
      · exact Or.inr ⟨s, List.mem_cons_of_mem s0 hs, d, hd, h⟩
    · rw [hstep]
      rcases ih (hitData r s0 d) with h | ⟨s, hs, d', hd', h⟩
      · exact Or.inr ⟨s0, List.mem_cons_self s0 rest, d, hd, h⟩
      · exact Or.inr ⟨s, List.mem_cons_of_mem s0 hs, d', hd', h⟩

/-- The loop keeps the accumulator when no listed sphere offers a nearer hit. -/
theorem loop_id (r : Ray) (l : List Sphere) (acc : ℝ × Vec3 × Vec3 × Material)
    (h : ∀ s ∈ l, ∀ d, ray_intersect s r = some d → acc.1 ≤ d) :
    scene_intersect_loop r l acc = acc := by
  induction l with
  | nil => rfl
  | cons s0 rest ih =>
    rw [scene_intersect_loop,
      loopStep_id r acc s0 (fun d hd => h s0 (List.mem_cons_self s0 rest) d hd)]
    exact ih (fun s hs d hd => h s (List.mem_cons_of_mem s0 hs) d hd)

/-- The loop over an appended list runs the two parts in order. -/
theorem loop_append (r : Ray) (a b : List Sphere) (acc : ℝ × Vec3 × Vec3 × Material) :
    scene_intersect_loop r (a ++ b) acc =
      scene_intersect_loop r b (scene_intersect_loop r a acc) := by
  induction a generalizing acc with
  | nil => rfl
  | cons s rest ih => rw [List.cons_append, scene_intersect_loop, scene_intersect_loop, ih]

/-- A scene hit comes from a listed sphere at a distance below 1000 that is
minimal among all listed hit distances, and carries that sphere's hit point,
outward normal and material. -/
theorem scene_intersect_elim (r : Ray) (spheres : List Sphere) (p n : Vec3) (m : Material)
    (h : scene_intersect r spheres = some (p, n, m)) :
    ∃ s ∈ spheres, ∃ d, ray_intersect s r = some d ∧ d < 1000 ∧
      (∀ s' ∈ spheres, ∀ d', ray_intersect s' r = some d' → d ≤ d') ∧
      p = r.origin + r.direction * d ∧
      n = ((r.origin + r.direction * d) - s.centre).normalise ∧
      m = s.material := by
  simp only [scene_intersect] at h
  rcases loop_cases r spheres (f32_MAX, default, default, default) with hc | ⟨s, hs, d, hd, hc⟩
  · rw [hc] at h
    rw [if_neg (by simpa using not_lt.mpr f32_MAX_big)] at h
    exact absurd h (by simp)
  · rw [hc] at h
    by_cases hlt : d < 1000
    · rw [if_pos (by simpa using hlt)] at h
      have h2 : (p, n, m) = (hitData r s d).2 := (Option.some.inj h).symm
      simp only [hitData, Prod.mk.injEq] at h2
      refine ⟨s, hs, d, hd, hlt, ?_, h2.1, h2.2.1, h2.2.2⟩
      intro s' hs' d' hd'
      have := loop_fst_le_hits r spheres (f32_MAX, default, default, default) s' hs' d' hd'
      rw [hc] at this
      simpa using this
    · rw [if_neg (by simpa using hlt)] at h
      exact absurd h (by simp)

/-- scene_intersect returns a hit when some listed sphere is hit below 1000. -/
theorem scene_intersect_some_of (r : Ray) (spheres : List Sphere) (s : Sphere) (d : ℝ)
    (hs : s ∈ spheres) (hd : ray_intersect s r = some d) (h1 : d < 1000) :
    ∃ pnm, scene_intersect r spheres = some pnm := by
  have hle := loop_fst_le_hits r spheres (f32_MAX, default, default, default) s hs d hd
  refine ⟨(scene_intersect_loop r spheres (f32_MAX, default, default, default)).2, ?_⟩
  simp only [scene_intersect]
  rw [if_pos (lt_of_le_of_lt hle h1)]

/-- scene_intersect reports no hit when every listed hit distance is at least 1000. -/
theorem scene_intersect_none_of (r : Ray) (spheres : List Sphere)
    (h : ∀ s ∈ spheres, ∀ d, ray_intersect s r = some d → (1000:ℝ) ≤ d) :
    scene_intersect r spheres = none := by
  simp only [scene_intersect]
  rcases loop_cases r spheres (f32_MAX, default, default, default) with hc | ⟨s, hs, d, hd, hc⟩
  · rw [hc, if_neg (by simpa using not_lt.mpr f32_MAX_big)]
  · rw [hc, if_neg (by simpa using not_lt.mpr (h s hs d hd))]

/-- scene_intersect over a one-sphere scene that is hit below 1000. -/
theorem scene_intersect_singleton (r : Ray) (s : Sphere) (d : ℝ)
    (h : ray_intersect s r = some d) (h1 : d < 1000) :
    scene_intersect r [s] =
      some (r.origin + r.direction * d,
            ((r.origin + r.direction * d) - s.centre).normalise, s.material) := by
  have hf : d < f32_MAX := lt_of_lt_of_le h1 f32_MAX_big
  simp [scene_intersect, scene_intersect_loop, loopStep, h, hf, h1, hitData]

/-- scene_intersect over a one-sphere scene that is missed. -/
theorem scene_intersect_singleton_none (r : Ray) (s : Sphere)
    (h : ray_intersect s r = none) : scene_intersect r [s] = none := by
  simp [scene_intersect, scene_intersect_loop, loopStep, h,
    not_lt.mpr f32_MAX_big]

/-- scene_intersect over a two-sphere scene whose first sphere is missed and whose
second is hit below 1000. -/
theorem scene_intersect_pair_second (r : Ray) (s1 s2 : Sphere) (d : ℝ)
    (h1 : ray_intersect s1 r = none) (h2 : ray_intersect s2 r = some d) (hd : d < 1000) :
    scene_intersect r [s1, s2] =
      some (r.origin + r.direction * d,
            ((r.origin + r.direction * d) - s2.centre).normalise, s2.material) := by
  have hf : d < f32_MAX := lt_of_lt_of_le hd f32_MAX_big
  simp [scene_intersect, scene_intersect_loop, loopStep, h1, h2, hf, hd, hitData]

/-- Claim C1: for a sphere of positive radius and a unit-direction ray,
ray_intersect returns the entry distance tca - thc when the origin is outside the
sphere and the hit is in front of the origin; returns the exit distance tca + thc,
which is never negative, when the origin is strictly inside; and returns none when
the closest-approach distance squared exceeds the radius squared or the whole
sphere lies behind the origin. -/
theorem ray_intersect_spec (s : Sphere) (r : Ray)
    (hrad : 0 < s.radius) (hdir : dot r.direction r.direction = 1) :
    (s.radius * s.radius < dot (sphL s r) (sphL s r) →
       d2 s r ≤ s.radius * s.radius → 0 ≤ tca s r - thc s r →
       ray_intersect s r = some (tca s r - thc s r)) ∧
    (dot (sphL s r) (sphL s r) < s.radius * s.radius →
       ray_intersect s r = some (tca s r + thc s r) ∧ 0 ≤ tca s r + thc s r) ∧
    (s.radius * s.radius < d2 s r → ray_intersect s r = none) ∧
    (tca s r + thc s r < 0 → ray_intersect s r = none) := by
  refine ⟨?_, ?_, ?_, ?_⟩
  · intro _ hd2 hfront
    exact ray_intersect_entry s r (not_lt.mpr hd2) hfront
  · intro hin
    have htsq : 0 ≤ tca s r * tca s r := mul_self_nonneg _
    have hd2lt : d2 s r < s.radius * s.radius := by
      rw [d2]; linarith
    have hsq : thc s r * thc s r = s.radius * s.radius - d2 s r :=
      thc_sq s r (le_of_lt hd2lt)
    have hgt : tca s r * tca s r < thc s r * thc s r := by
      rw [hsq, d2]; linarith
    have hth := thc_nonneg s r
    have hlt : tca s r - thc s r < 0 := by nlinarith
    have hge : 0 ≤ tca s r + thc s r := by nlinarith
    exact ⟨ray_intersect_exit s r (not_lt.mpr (le_of_lt hd2lt)) hlt (not_lt.mpr hge), hge⟩
  · intro hmiss
    exact ray_intersect_miss s r hmiss
  · intro hbehind
    exact ray_intersect_behind s r hbehind

/-- Witness for C1 at the sphere of radius 2 centred at (0,0,-5) and the unit ray
along -z from the origin: the entry distance is 3. -/
theorem ray_intersect_spec_witness :
    0 < frontSphere.radius ∧ dot axisRay.direction axisRay.direction = 1 ∧
    frontSphere.radius * frontSphere.radius <
      dot (sphL frontSphere axisRay) (sphL frontSphere axisRay) ∧
    d2 frontSphere axisRay ≤ frontSphere.radius * frontSphere.radius ∧
    0 ≤ tca frontSphere axisRay - thc frontSphere axisRay ∧
    ray_intersect frontSphere axisRay = some 3 := by
  have hdir : dot axisRay.direction axisRay.direction = 1 := by
    simp [dot, axisRay]
  have htca : tca frontSphere axisRay = 5 := by
    simp [tca, sphL, dot, frontSphere, axisRay]
  have hll : dot (sphL frontSphere axisRay) (sphL frontSphere axisRay) = 25 := by
    norm_num [sphL, dot, frontSphere, axisRay]
  have hd2 : d2 frontSphere axisRay = 0 := by
    rw [d2, htca, hll]; norm_num
  have hthc : thc frontSphere axisRay = 2 := by
    rw [thc, hd2]
    exact sqrt_val (by norm_num) (by norm_num [frontSphere])
  have hrad : 0 < frontSphere.radius := by norm_num [frontSphere]
  have hout : frontSphere.radius * frontSphere.radius <
      dot (sphL frontSphere axisRay) (sphL frontSphere axisRay) := by
    rw [hll]; norm_num [frontSphere]
  have hd2le : d2 frontSphere axisRay ≤ frontSphere.radius * frontSphere.radius := by
    rw [hd2]; norm_num [frontSphere]
  have hfront : 0 ≤ tca frontSphere axisRay - thc frontSphere axisRay := by
    rw [htca, hthc]; norm_num
  have hmain := (ray_intersect_spec frontSphere axisRay hrad hdir).1 hout hd2le hfront
  refine ⟨hrad, hdir, hout, hd2le, hfront, ?_⟩
  rw [hmain, htca, hthc]
  norm_num

/-- Claim C2: scene_intersect returns the hit with globally minimal intersection
distance, the hit point origin + direction * t, the outward normal
(hit - centre).normalise, and the material of that nearest sphere; it returns a hit
whenever some sphere is hit below the cull distance 1000, and no hit when every
intersection distance is at least 1000. -/
theorem scene_intersect_spec (r : Ray) (spheres : List Sphere) :
    (∀ p n m, scene_intersect r spheres = some (p, n, m) →
       ∃ s ∈ spheres, ∃ d, ray_intersect s r = some d ∧ d < 1000 ∧
         (∀ s' ∈ spheres, ∀ d', ray_intersect s' r = some d' → d ≤ d') ∧
         p = r.origin + r.direction * d ∧
         n = ((r.origin + r.direction * d) - s.centre).normalise ∧
         m = s.material) ∧
    (∀ s ∈ spheres, ∀ d, ray_intersect s r = some d → d < 1000 →
       ∃ pnm, scene_intersect r spheres = some pnm) ∧
    ((∀ s ∈ spheres, ∀ d, ray_intersect s r = some d → (1000:ℝ) ≤ d) →
       scene_intersect r spheres = none) :=
  ⟨fun p n m h => scene_intersect_elim r spheres p n m h,
   fun s hs d hd h1 => scene_intersect_some_of r spheres s d hs hd h1,
   fun h => scene_intersect_none_of r spheres h⟩

/-- Witness for C2: a sphere entirely behind the ray origin yields no scene hit. -/
theorem scene_intersect_spec_witness :
    (∀ s ∈ [behindSphere], ∀ d, ray_intersect s axisRay = some d → (1000:ℝ) ≤ d) ∧
    scene_intersect axisRay [behindSphere] = none := by
  have htca : tca behindSphere axisRay = -5 := by
    simp [tca, sphL, dot, behindSphere, axisRay]
  have hll : dot (sphL behindSphere axisRay) (sphL behindSphere axisRay) = 25 := by
    norm_num [sphL, dot, behindSphere, axisRay]
  have hd2 : d2 behindSphere axisRay = 0 := by
    rw [d2, htca, hll]; norm_num
  have hthc : thc behindSphere axisRay = 1 := by
    rw [thc, hd2]
    exact sqrt_val (by norm_num) (by norm_num [behindSphere])
  have hnone : ray_intersect behindSphere axisRay = none := by
    refine ray_intersect_behind behindSphere axisRay ?_
    rw [htca, hthc]; norm_num
  have hyp : ∀ s ∈ [behindSphere], ∀ d, ray_intersect s axisRay = some d → (1000:ℝ) ≤ d := by
    intro s hs d hd
    rw [List.mem_singleton.mp hs] at hd
    rw [hnone] at hd
    exact absurd hd (by simp)
  exact ⟨hyp, (scene_intersect_spec axisRay [behindSphere]).2.2 hyp⟩

/-- Claim C8: when a sphere s is hit at distance d below 1000, every sphere listed
before it is hit only strictly farther, and every sphere listed after it is hit no
nearer, scene_intersect returns the hit point, normal and material of s: strictly
nearer spheres win, and exact ties resolve to the first sphere in list order. -/
theorem scene_intersect_first_wins (r : Ray) (pre post : List Sphere) (s : Sphere) (d : ℝ)
    (hs : ray_intersect s r = some d) (hd : d < 1000)
    (hpre : ∀ s' ∈ pre, ∀ d', ray_intersect s' r = some d' → d < d')
    (hpost : ∀ s' ∈ post, ∀ d', ray_intersect s' r = some d' → d ≤ d') :
    scene_intersect r (pre ++ s :: post) =
      some (r.origin + r.direction * d,
            ((r.origin + r.direction * d) - s.centre).normalise, s.material) := by
  have hdf : d < f32_MAX := lt_of_lt_of_le hd f32_MAX_big
  simp only [scene_intersect]
  rw [loop_append]
  have hdA : d < (scene_intersect_loop r pre (f32_MAX, default, default, default)).1 := by
    rcases loop_cases r pre (f32_MAX, default, default, default) with hc | ⟨s', hs', d', hd', hc⟩
    · rw [hc]; exact hdf
    · rw [hc]; simpa using hpre s' hs' d' hd'
  rw [scene_intersect_loop]
  have hstep : loopStep r (scene_intersect_loop r pre (f32_MAX, default, default, default)) s
      = hitData r s d := by
    rw [loopStep, hs]
    simp [hdA]
  rw [hstep,
    loop_id r post (hitData r s d) (by intro s' hs' d' hd'; simpa using hpost s' hs' d' hd'),
    if_pos (by simpa using hd)]
  simp [hitData]

/-- Any sphere of radius 1 centred at (0,0,-5) is entered by axisRay at distance 4,
whatever its material. -/
theorem ray_intersect_unit5 (m : Material) :
    ray_intersect ⟨⟨0, 0, -5⟩, 1, m⟩ axisRay = some 4 := by
  have htca : tca ⟨⟨0, 0, -5⟩, 1, m⟩ axisRay = 5 := by
    norm_num [tca, sphL, dot, axisRay]
  have hd2 : d2 ⟨⟨0, 0, -5⟩, 1, m⟩ axisRay = 0 := by
    norm_num [d2, tca, sphL, dot, axisRay]
  have hthc : thc ⟨⟨0, 0, -5⟩, 1, m⟩ axisRay = 1 := by
    rw [thc, hd2]
    exact sqrt_val (by norm_num) (by norm_num)
  have h := ray_intersect_entry ⟨⟨0, 0, -5⟩, 1, m⟩ axisRay
    (by rw [hd2]; norm_num) (by rw [htca, hthc]; norm_num)
  rw [h, htca, hthc]
  norm_num

/-- Witness for C8: two geometrically identical spheres are both hit at distance 4
and the first-listed one supplies the material of the scene hit. -/
theorem scene_intersect_first_wins_witness :
    ray_intersect tieSphereA axisRay = some 4 ∧ (4:ℝ) < 1000 ∧
    (∀ s' ∈ ([] : List Sphere), ∀ d', ray_intersect s' axisRay = some d' → (4:ℝ) < d') ∧
    (∀ s' ∈ [tieSphereB], ∀ d', ray_intersect s' axisRay = some d' → (4:ℝ) ≤ d') ∧
    scene_intersect axisRay [tieSphereA, tieSphereB] =
      some (axisRay.origin + axisRay.direction * (4:ℝ),
            ((axisRay.origin + axisRay.direction * (4:ℝ)) - tieSphereA.centre).normalise,
            tieSphereA.material) := by
  have hA : ray_intersect tieSphereA axisRay = some 4 := ray_intersect_unit5 redMat
  have hB : ray_intersect tieSphereB axisRay = some 4 := ray_intersect_unit5 greenMat
  have hpre : ∀ s' ∈ ([] : List Sphere), ∀ d', ray_intersect s' axisRay = some d' → (4:ℝ) < d' := by
    intro s' hs'
    exact absurd hs' (List.not_mem_nil s')
  have hpost : ∀ s' ∈ [tieSphereB], ∀ d', ray_intersect s' axisRay = some d' → (4:ℝ) ≤ d' := by
    intro s' hs' d' hd'
    rw [List.mem_singleton.mp hs', hB] at hd'
    rw [Option.some.inj hd']
  exact ⟨hA, by norm_num, hpre, hpost,
    scene_intersect_first_wins axisRay [] [tieSphereB] tieSphereA 4 hA (by norm_num) hpre hpost⟩

/-- Folding pairwise addition of a pairs-valued function equals the pair of sums. -/
theorem foldl_add_pair (g : Light → ℝ × ℝ) (lights : List Light) (acc : ℝ × ℝ) :
    List.foldl (fun a l => (a.1 + (g l).1, a.2 + (g l).2)) acc lights =
      (acc.1 + ((lights.map fun l => (g l).1).sum),
       acc.2 + ((lights.map fun l => (g l).2).sum)) := by
  induction lights generalizing acc with
  | nil => simp
  | cons l ls ih =>
    rw [List.foldl_cons, ih]
    simp only [List.map_cons, List.sum_cons, Prod.mk.injEq]
    constructor <;> ring

/-- The light loop accumulates exactly the per-light contributions. -/
theorem lightSums_eq_sum (rdir : Vec3) (spheres : List Sphere) (point normal : Vec3)
    (e : ℝ) (lights : List Light) :
    lightSums rdir spheres point normal e lights =
      ((lights.map fun l => (lightContrib rdir spheres point normal e l).1).sum,
       (lights.map fun l => (lightContrib rdir spheres point normal e l).2).sum) := by
  rw [lightSums, foldl_add_pair (fun l => lightContrib rdir spheres point normal e l)]
  simp

/-- The per-light contribution is zero exactly on the shadow-test branch and the
pair of diffuse and specular terms otherwise. -/
theorem lightContrib_eq (rdir : Vec3) (spheres : List Sphere) (point normal : Vec3)
    (e : ℝ) (l : Light) :
    lightContrib rdir spheres point normal e l =
      if isOccluded spheres point normal l then (0, 0)
      else (diffuseTerm point normal l, specularTerm rdir point normal e l) := by
  cases h : scene_intersect ⟨shadowOrigin point normal l, lightDir point l⟩ spheres with
  | none => simp [lightContrib, isOccluded, h]
  | some pnm =>
    obtain ⟨sp, nr, mt⟩ := pnm
    by_cases hlt : (sp - shadowOrigin point normal l).length < lightDist point l
    · simp [lightContrib, isOccluded, h, hlt]
    · simp [lightContrib, isOccluded, h, hlt]

/-- The diffuse sum is the sum of diffuse terms over the unoccluded lights. -/
theorem map_contrib_fst (rdir : Vec3) (spheres : List Sphere) (point normal : Vec3)
    (e : ℝ) (lights : List Light) :
    (lights.map fun l => (lightContrib rdir spheres point normal e l).1).sum =
      ((lights.filter fun l => !isOccluded spheres point normal l).map
        (diffuseTerm point normal)).sum := by
  induction lights with
  | nil => simp
  | cons l ls ih =>
    rw [List.map_cons, List.sum_cons, ih, lightContrib_eq]
    by_cases h : isOccluded spheres point normal l = true
    · simp [List.filter_cons, h]
    · simp [List.filter_cons, h]

/-- The specular sum is the sum of specular terms over the unoccluded lights. -/
theorem map_contrib_snd (rdir : Vec3) (spheres : List Sphere) (point normal : Vec3)
    (e : ℝ) (lights : List Light) :
    (lights.map fun l => (lightContrib rdir spheres point normal e l).2).sum =
      ((lights.filter fun l => !isOccluded spheres point normal l).map
        (specularTerm rdir point normal e)).sum := by
  induction lights with
  | nil => simp
  | cons l ls ih =>
    rw [List.map_cons, List.sum_cons, ih, lightContrib_eq]
    by_cases h : isOccluded spheres point normal l = true
    · simp [List.filter_cons, h]
    · simp [List.filter_cons, h]

/-- cast_ray on a scene hit combines the two accumulated sums with the material. -/
theorem cast_ray_hit (r : Ray) (spheres : List Sphere) (lights : List Light)
    (p n : Vec3) (m : Material) (h : scene_intersect r spheres = some (p, n, m)) :
    cast_ray r spheres lights =
      some (m.diffuse_colour
              * (lightSums r.direction spheres p n m.specular_exponent lights).1
              * m.albedo.x
            + (⟨1, 1, 1⟩ : Vec3)
              * (lightSums r.direction spheres p n m.specular_exponent lights).2
              * m.albedo.y) := by
  simp [cast_ray, h]

/-- Claim C3 (amended): for a primary ray that hits the scene cast_ray returns
exactly diffuse_colour * diffuse_sum * albedo.x + (1,1,1) * specular_sum *
albedo.y, summing the diffuse and specular terms of the unoccluded lights; a light
whose diffuse dot product is negative has diffuse term zero, and a light whose
specular dot product is negative has specular term zero provided the specular
exponent is positive: with exponent zero the source's powf on base 0 yields 1, and
with a negative exponent it yields positive infinity, so only positive exponents
give the claimed zero. -/
theorem cast_ray_hit_formula (r : Ray) (spheres : List Sphere) (lights : List Light)
    (p n : Vec3) (m : Material) (h : scene_intersect r spheres = some (p, n, m)) :
    cast_ray r spheres lights =
      some (m.diffuse_colour
              * ((lights.filter fun l => !isOccluded spheres p n l).map
                  (diffuseTerm p n)).sum
              * m.albedo.x
            + (⟨1, 1, 1⟩ : Vec3)
              * ((lights.filter fun l => !isOccluded spheres p n l).map
                  (specularTerm r.direction p n m.specular_exponent)).sum
              * m.albedo.y) ∧
    (∀ l : Light, dot (lightDir p l) n < 0 → diffuseTerm p n l = 0) ∧
    (∀ l : Light, 0 < m.specular_exponent →
       dot (-(reflect (-(lightDir p l)) n)) r.direction < 0 →
       specularTerm r.direction p n m.specular_exponent l = 0) := by
  refine ⟨?_, ?_, ?_⟩
  · rw [cast_ray_hit r spheres lights p n m h, lightSums_eq_sum,
      map_contrib_fst, map_contrib_snd]
  · intro l hdot
    rw [diffuseTerm, max_eq_left hdot.le, mul_zero]
  · intro l he hdot
    rw [specularTerm, max_eq_left hdot.le, Real.zero_rpow (ne_of_gt he), zero_mul]

/-- Counterexample to C3 as stated: for the tangent hit of axisRay on tangentSphere
(hit point (0,0,-5), normal (0,1,0)) and the unoccluded light sideLight, the
specular dot product is -4/5 < 0, yet with specular exponent 0 the light's specular
term is 1 (the source computes 0^0 = 1), not zero, and cast_ray returns
(8/5,8/5,8/5) instead of the purely diffuse (3/5,3/5,3/5) that a zero specular
contribution would give. -/
theorem cast_ray_specular_zero_exponent_cex :
    dot (-(reflect (-(lightDir ⟨0, 0, -5⟩ sideLight)) ⟨0, 1, 0⟩)) axisRay.direction < 0 ∧
    specularTerm axisRay.direction ⟨0, 0, -5⟩ ⟨0, 1, 0⟩ 0 sideLight = 1 ∧
    (1 : ℝ) ≠ 0 ∧
    cast_ray axisRay [tangentSphere] [sideLight] = some ⟨8/5, 8/5, 8/5⟩ ∧
    (⟨8/5, 8/5, 8/5⟩ : Vec3) ≠ ⟨3/5, 3/5, 3/5⟩ := by
  have hldvec : sideLight.position - (⟨0, 0, -5⟩ : Vec3) = ⟨0, 3, 4⟩ := by
    norm_num [sideLight]
  have hld : lightDir ⟨0, 0, -5⟩ sideLight = ⟨0, 3/5, 4/5⟩ := by
    rw [lightDir, hldvec, normalise_eval (by norm_num : (0:ℝ) ≤ 5) (by norm_num [dot])]
    norm_num
  have hso : shadowOrigin ⟨0, 0, -5⟩ ⟨0, 1, 0⟩ sideLight = ⟨0, 1/1000, -5⟩ := by
    simp only [shadowOrigin, hld]
    rw [if_neg (by norm_num [dot])]
    norm_num
  have htca : tca tangentSphere ⟨⟨0, 1/1000, -5⟩, ⟨0, 3/5, 4/5⟩⟩ = -3003/5000 := by
    norm_num [tca, sphL, dot, tangentSphere]
  have hd2v : d2 tangentSphere ⟨⟨0, 1/1000, -5⟩, ⟨0, 3/5, 4/5⟩⟩ = 16032016/25000000 := by
    norm_num [d2, tca, sphL, dot, tangentSphere]
  have hthc : thc tangentSphere ⟨⟨0, 1/1000, -5⟩, ⟨0, 3/5, 4/5⟩⟩ < 3003/5000 := by
    rw [thc, hd2v]
    have h1 : tangentSphere.radius * tangentSphere.radius - 16032016/25000000
        = (8967984/25000000 : ℝ) := by norm_num [tangentSphere]
    rw [h1]
    exact (Real.sqrt_lt' (by norm_num)).mpr (by norm_num)
  have hmiss : ray_intersect tangentSphere ⟨⟨0, 1/1000, -5⟩, ⟨0, 3/5, 4/5⟩⟩ = none := by
    apply ray_intersect_behind
    rw [htca]
    linarith [hthc]
  have hshadow : scene_intersect ⟨⟨0, 1/1000, -5⟩, ⟨0, 3/5, 4/5⟩⟩ [tangentSphere] = none :=
    scene_intersect_singleton_none _ _ hmiss
  have hnotocc : isOccluded [tangentSphere] ⟨0, 0, -5⟩ ⟨0, 1, 0⟩ sideLight = false := by
    simp only [isOccluded, hso, hld, hshadow]
  have hddot : dot (⟨0, 3/5, 4/5⟩ : Vec3) ⟨0, 1, 0⟩ = 3/5 := by norm_num [dot]
  have hdT : diffuseTerm ⟨0, 0, -5⟩ ⟨0, 1, 0⟩ sideLight = 3/5 := by
    rw [diffuseTerm, hld, hddot, max_eq_right (by norm_num : (0:ℝ) ≤ 3/5)]
    norm_num [sideLight]
  have hsdot : dot (-(reflect (-(lightDir ⟨0, 0, -5⟩ sideLight)) ⟨0, 1, 0⟩))
      axisRay.direction = -4/5 := by
    rw [hld]
    norm_num [reflect, dot, axisRay]
  have hsT : specularTerm axisRay.direction ⟨0, 0, -5⟩ ⟨0, 1, 0⟩ 0 sideLight = 1 := by
    rw [specularTerm, Real.rpow_zero]
    norm_num [sideLight]
  have hri : ray_intersect tangentSphere axisRay = some 5 := by
    have ht : tca tangentSphere axisRay = 5 := by
      norm_num [tca, sphL, dot, tangentSphere, axisRay]
    have hd : d2 tangentSphere axisRay = 1 := by
      norm_num [d2, tca, sphL, dot, tangentSphere, axisRay]
    have hth : thc tangentSphere axisRay = 0 := by
      rw [thc, hd]
      have h0 : tangentSphere.radius * tangentSphere.radius - 1 = (0:ℝ) := by
        norm_num [tangentSphere]
      rw [h0, Real.sqrt_zero]
    have h := ray_intersect_entry tangentSphere axisRay
      (by rw [hd]; norm_num [tangentSphere]) (by rw [ht, hth]; norm_num)
    rw [h, ht, hth]
    norm_num
  have hp5 : axisRay.origin + axisRay.direction * (5:ℝ) = (⟨0, 0, -5⟩ : Vec3) := by
    norm_num [axisRay]
  have hnorm : ((axisRay.origin + axisRay.direction * (5:ℝ)) - tangentSphere.centre).normalise
      = (⟨0, 1, 0⟩ : Vec3) := by
    have h1 : (axisRay.origin + axisRay.direction * (5:ℝ)) - tangentSphere.centre
        = (⟨0, 1, 0⟩ : Vec3) := by norm_num [axisRay, tangentSphere]
    rw [h1, normalise_eval (by norm_num : (0:ℝ) ≤ 1) (by norm_num [dot])]
    norm_num
  have hsi : scene_intersect axisRay [tangentSphere]
      = some (⟨0, 0, -5⟩, ⟨0, 1, 0⟩, zeroExpMat) := by
    rw [scene_intersect_singleton axisRay tangentSphere 5 hri (by norm_num), hnorm, hp5]
    rfl
  have hc : lightContrib axisRay.direction [tangentSphere] ⟨0, 0, -5⟩ ⟨0, 1, 0⟩
      zeroExpMat.specular_exponent sideLight = (3/5, 1) := by
    rw [lightContrib_eq, hnotocc]
    simp only [Bool.false_eq_true, if_false]
    rw [show zeroExpMat.specular_exponent = 0 from rfl, hdT, hsT]
  have hsums : lightSums axisRay.direction [tangentSphere] ⟨0, 0, -5⟩ ⟨0, 1, 0⟩
      zeroExpMat.specular_exponent [sideLight] = (3/5, 1) := by
    rw [lightSums_eq_sum]
    simp [hc]
  have hcast := cast_ray_hit axisRay [tangentSphere] [sideLight] ⟨0, 0, -5⟩ ⟨0, 1, 0⟩
    zeroExpMat hsi
  rw [hsums] at hcast
  refine ⟨by rw [hsdot]; norm_num, hsT, by norm_num, ?_, by norm_num [Vec3.mk.injEq]⟩
  rw [hcast]
  norm_num [zeroExpMat]

/-- Witness for the amended C3 at the ivory sphere hit head-on by axisRay with an
empty light list. -/
theorem cast_ray_hit_formula_witness :
    scene_intersect axisRay [ivorySphere] =
      some (axisRay.origin + axisRay.direction * (4:ℝ),
            ((axisRay.origin + axisRay.direction * (4:ℝ)) - ivorySphere.centre).normalise,
            ivorySphere.material) ∧
    cast_ray axisRay [ivorySphere] [] = some ⟨0, 0, 0⟩ := by
  have hri : ray_intersect ivorySphere axisRay = some 4 := ray_intersect_unit5 ivory
  have hsi := scene_intersect_singleton axisRay ivorySphere 4 hri (by norm_num)
  refine ⟨hsi, ?_⟩
  have h := (cast_ray_hit_formula axisRay [ivorySphere] []
    (axisRay.origin + axisRay.direction * (4:ℝ))
    ((axisRay.origin + axisRay.direction * (4:ℝ)) - ivorySphere.centre).normalise
    ivorySphere.material hsi).1
  rw [h]
  norm_num [ivory, ivorySphere]

/-- Claim C4: a light whose shadow ray, cast from the bias-offset hit point toward
the light, hits the scene strictly nearer than the light contributes exactly (0,0)
to the diffuse and specular sums, and the sums decompose into independent per-light
contributions, so every unoccluded light's contribution is unaffected. -/
theorem occluded_light_contributes_zero (rdir : Vec3) (spheres : List Sphere)
    (point normal : Vec3) (e : ℝ) (l : Light) (sp nr : Vec3) (mt : Material)
    (hsi : scene_intersect ⟨shadowOrigin point normal l, lightDir point l⟩ spheres
      = some (sp, nr, mt))
    (hlt : (sp - shadowOrigin point normal l).length < lightDist point l) :
    lightContrib rdir spheres point normal e l = (0, 0) ∧
    ∀ lights : List Light,
      lightSums rdir spheres point normal e lights =
        ((lights.map fun l2 => (lightContrib rdir spheres point normal e l2).1).sum,
         (lights.map fun l2 => (lightContrib rdir spheres point normal e l2).2).sum) := by
  constructor
  · simp only [lightContrib, hsi]
    rw [if_pos hlt]
  · intro lights
    exact lightSums_eq_sum rdir spheres point normal e lights

/-- Witness for C4: with the surface sphere hit at (0,0,-4) (normal (0,0,1)) and
the light at (0,10,-4), the occluding sphere blocks the shadow ray at distance 4 of
10, and the light's contribution is (0,0). -/
theorem occluded_light_contributes_zero_witness :
    scene_intersect ⟨shadowOrigin ⟨0, 0, -4⟩ ⟨0, 0, 1⟩ blockedLight,
        lightDir ⟨0, 0, -4⟩ blockedLight⟩ [surfaceSphere, occluderSphere] =
      some (⟨0, 4, -3999/1000⟩, ⟨0, -1, 0⟩, default) ∧
    ((⟨0, 4, -3999/1000⟩ : Vec3) - shadowOrigin ⟨0, 0, -4⟩ ⟨0, 0, 1⟩ blockedLight).length <
      lightDist ⟨0, 0, -4⟩ blockedLight ∧
    lightContrib ⟨0, 0, -1⟩ [surfaceSphere, occluderSphere] ⟨0, 0, -4⟩ ⟨0, 0, 1⟩ 1
      blockedLight = (0, 0) := by
  have hlvec : blockedLight.position - (⟨0, 0, -4⟩ : Vec3) = ⟨0, 10, 0⟩ := by
    norm_num [blockedLight]
  have hld : lightDir ⟨0, 0, -4⟩ blockedLight = ⟨0, 1, 0⟩ := by
    rw [lightDir, hlvec, normalise_eval (by norm_num : (0:ℝ) ≤ 10) (by norm_num [dot])]
    norm_num
  have hdist : lightDist ⟨0, 0, -4⟩ blockedLight = 10 := by
    rw [lightDist, hlvec]
    exact length_eval (by norm_num) (by norm_num [dot])
  have hso : shadowOrigin ⟨0, 0, -4⟩ ⟨0, 0, 1⟩ blockedLight = ⟨0, 0, -3999/1000⟩ := by
    simp only [shadowOrigin, hld]
    rw [if_neg (by norm_num [dot])]
    norm_num
  have hmiss : ray_intersect surfaceSphere ⟨⟨0, 0, -3999/1000⟩, ⟨0, 1, 0⟩⟩ = none := by
    apply ray_intersect_miss
    norm_num [d2, tca, sphL, dot, surfaceSphere]
  have hhit : ray_intersect occluderSphere ⟨⟨0, 0, -3999/1000⟩, ⟨0, 1, 0⟩⟩ = some 4 := by
    have ht : tca occluderSphere ⟨⟨0, 0, -3999/1000⟩, ⟨0, 1, 0⟩⟩ = 5 := by
      norm_num [tca, sphL, dot, occluderSphere]
    have hd : d2 occluderSphere ⟨⟨0, 0, -3999/1000⟩, ⟨0, 1, 0⟩⟩ = 0 := by
      norm_num [d2, tca, sphL, dot, occluderSphere]
    have hth : thc occluderSphere ⟨⟨0, 0, -3999/1000⟩, ⟨0, 1, 0⟩⟩ = 1 := by
      rw [thc, hd]
      exact sqrt_val (by norm_num) (by norm_num [occluderSphere])
    have h := ray_intersect_entry occluderSphere ⟨⟨0, 0, -3999/1000⟩, ⟨0, 1, 0⟩⟩
      (by rw [hd]; norm_num [occluderSphere]) (by rw [ht, hth]; norm_num)
    rw [h, ht, hth]
    norm_num
  have hpt : (⟨⟨0, 0, -3999/1000⟩, ⟨0, 1, 0⟩⟩ : Ray).origin
      + (⟨⟨0, 0, -3999/1000⟩, ⟨0, 1, 0⟩⟩ : Ray).direction * (4:ℝ) = (⟨0, 4, -3999/1000⟩ : Vec3) := by
    norm_num
  have hnr : ((⟨0, 4, -3999/1000⟩ : Vec3) - occluderSphere.centre).normalise
      = (⟨0, -1, 0⟩ : Vec3) := by
    have h1 : (⟨0, 4, -3999/1000⟩ : Vec3) - occluderSphere.centre = ⟨0, -1, 0⟩ := by
      norm_num [occluderSphere]
    rw [h1, normalise_eval (by norm_num : (0:ℝ) ≤ 1) (by norm_num [dot])]
    norm_num
  have hsi0 : scene_intersect ⟨⟨0, 0, -3999/1000⟩, ⟨0, 1, 0⟩⟩ [surfaceSphere, occluderSphere]
      = some (⟨0, 4, -3999/1000⟩, ⟨0, -1, 0⟩, default) := by
    rw [scene_intersect_pair_second _ _ _ 4 hmiss hhit (by norm_num), hpt, hnr]
    rfl
  have hsi : scene_intersect ⟨shadowOrigin ⟨0, 0, -4⟩ ⟨0, 0, 1⟩ blockedLight,
      lightDir ⟨0, 0, -4⟩ blockedLight⟩ [surfaceSphere, occluderSphere]
      = some (⟨0, 4, -3999/1000⟩, ⟨0, -1, 0⟩, default) := by
    rw [hso, hld]
    exact hsi0
  have hlen : ((⟨0, 4, -3999/1000⟩ : Vec3) - shadowOrigin ⟨0, 0, -4⟩ ⟨0, 0, 1⟩ blockedLight).length <
      lightDist ⟨0, 0, -4⟩ blockedLight := by
    rw [hso, hdist]
    have h1 : (⟨0, 4, -3999/1000⟩ : Vec3) - ⟨0, 0, -3999/1000⟩ = ⟨0, 4, 0⟩ := by
      norm_num
    rw [h1, length_eval (by norm_num : (0:ℝ) ≤ 4) (by norm_num [dot])]
    norm_num
  exact ⟨hsi, hlen,
    (occluded_light_contributes_zero ⟨0, 0, -1⟩ [surfaceSphere, occluderSphere]
      ⟨0, 0, -4⟩ ⟨0, 0, 1⟩ 1 blockedLight ⟨0, 4, -3999/1000⟩ ⟨0, -1, 0⟩ default hsi hlen).1⟩

/-- The diffuse component of a per-light contribution is non-negative for a light
of non-negative intensity. -/
theorem lightContrib_fst_nonneg (rdir : Vec3) (spheres : List Sphere)
    (point normal : Vec3) (e : ℝ) (l : Light) (hl : 0 ≤ l.intensity) :
    0 ≤ (lightContrib rdir spheres point normal e l).1 := by
  rw [lightContrib_eq]
  split_ifs
  · norm_num
  · exact mul_nonneg hl (le_max_left 0 _)

/-- The specular component of a per-light contribution is non-negative for a light
of non-negative intensity. -/
theorem lightContrib_snd_nonneg (rdir : Vec3) (spheres : List Sphere)
    (point normal : Vec3) (e : ℝ) (l : Light) (hl : 0 ≤ l.intensity) :
    0 ≤ (lightContrib rdir spheres point normal e l).2 := by
  rw [lightContrib_eq]
  split_ifs
  · norm_num
  · exact mul_nonneg (Real.rpow_nonneg (le_max_left 0 _) e) hl

/-- Claim C10: with non-negative light intensities and componentwise non-negative
materials, every colour cast_ray returns has non-negative components, and with an
empty light list the returned colour is exactly zero. -/
theorem cast_ray_nonneg (r : Ray) (spheres : List Sphere) (lights : List Light) (v : Vec3)
    (hl : ∀ l ∈ lights, 0 ≤ l.intensity)
    (hm : ∀ s ∈ spheres, matNonneg s.material)
    (hv : cast_ray r spheres lights = some v) :
    (0 ≤ v.x ∧ 0 ≤ v.y ∧ 0 ≤ v.z) ∧ (lights = [] → v = ⟨0, 0, 0⟩) := by
  cases hsi : scene_intersect r spheres with
  | none => rw [cast_ray, hsi] at hv; exact absurd hv (by simp)
  | some pnm =>
    obtain ⟨p, n, m⟩ := pnm
    have hmm : matNonneg m := by
      obtain ⟨s, hs, d, -, -, -, -, -, hm'⟩ := scene_intersect_elim r spheres p n m hsi
      rw [hm']
      exact hm s hs
    obtain ⟨ha1, ha2, hc1, hc2, hc3⟩ := hmm
    have hvv := cast_ray_hit r spheres lights p n m hsi
    rw [hv] at hvv
    have hv' := Option.some.inj hvv
    have hs1 : 0 ≤ (lightSums r.direction spheres p n m.specular_exponent lights).1 := by
      rw [lightSums_eq_sum]
      apply List.sum_nonneg
      intro x hx
      obtain ⟨l, hlm, rfl⟩ := List.mem_map.mp hx
      exact lightContrib_fst_nonneg r.direction spheres p n m.specular_exponent l (hl l hlm)
    have hs2 : 0 ≤ (lightSums r.direction spheres p n m.specular_exponent lights).2 := by
      rw [lightSums_eq_sum]
      apply List.sum_nonneg
      intro x hx
      obtain ⟨l, hlm, rfl⟩ := List.mem_map.mp hx
      exact lightContrib_snd_nonneg r.direction spheres p n m.specular_exponent l (hl l hlm)
    constructor
    · rw [hv']
      refine ⟨?_, ?_, ?_⟩ <;> simp only [Vec3.add_def, Vec3.hmul_def] <;>
        exact add_nonneg (mul_nonneg (mul_nonneg (by assumption) hs1) ha1)
          (mul_nonneg (mul_nonneg (by norm_num) hs2) ha2)
    · intro hempty
      subst hempty
      have hz : lightSums r.direction spheres p n m.specular_exponent [] = (0, 0) := rfl
      rw [hv', hz]
      simp only [Vec3.add_def, Vec3.hmul_def, Vec3.mk.injEq]
      norm_num

/-- Witness for C10: the red sphere hit by axisRay under an empty light list gives
exactly the zero colour. -/
theorem cast_ray_nonneg_witness :
    (∀ l ∈ ([] : List Light), 0 ≤ l.intensity) ∧
    (∀ s ∈ [redSphere], matNonneg s.material) ∧
    cast_ray axisRay [redSphere] [] = some ⟨0, 0, 0⟩ ∧
    ((0 ≤ (⟨0, 0, 0⟩ : Vec3).x ∧ 0 ≤ (⟨0, 0, 0⟩ : Vec3).y ∧ 0 ≤ (⟨0, 0, 0⟩ : Vec3).z) ∧
     (([] : List Light) = [] → (⟨0, 0, 0⟩ : Vec3) = ⟨0, 0, 0⟩)) := by
  have h1 : ∀ l ∈ ([] : List Light), 0 ≤ l.intensity := by
    intro l hl
    exact absurd hl (List.not_mem_nil l)
  have h2 : ∀ s ∈ [redSphere], matNonneg s.material := by
    intro s hs
    rw [List.mem_singleton.mp hs]
    refine ⟨?_, ?_, ?_, ?_, ?_⟩ <;> norm_num [redSphere, redMat, matNonneg]
  have hri : ray_intersect redSphere axisRay = some 4 := ray_intersect_unit5 redMat
  have hsi := scene_intersect_singleton axisRay redSphere 4 hri (by norm_num)
  have hv : cast_ray axisRay [redSphere] [] = some ⟨0, 0, 0⟩ := by
    rw [cast_ray_hit axisRay [redSphere] [] _ _ _ hsi]
    have hz : lightSums axisRay.direction [redSphere]
        (axisRay.origin + axisRay.direction * (4:ℝ))
        ((axisRay.origin + axisRay.direction * (4:ℝ)) - redSphere.centre).normalise
        redSphere.material.specular_exponent [] = (0, 0) := rfl
    rw [hz]
    norm_num [redSphere, redMat]
  exact ⟨h1, h2, hv, cast_ray_nonneg axisRay [redSphere] [] ⟨0, 0, 0⟩ h1 h2 hv⟩

/-- The floor of a real known to lie in [n, n+1). -/
theorem floor_eval (x : ℝ) (n : ℤ) (h1 : (n:ℝ) ≤ x) (h2 : x < n + 1) : ⌊x⌋ = n :=
  Int.floor_eq_iff.mpr ⟨h1, h2⟩

/-- clamp is the identity on [0,1]. -/
theorem clamp_of_mem (x : ℝ) (h0 : 0 ≤ x) (h1 : x ≤ 1) : clamp x 0 1 = x := by
  rw [clamp, if_neg (not_lt.mpr h0), if_neg (not_lt.mpr h1)]

/-- clamp lands in the clamping interval. -/
theorem clamp_mem (x mn mx : ℝ) (h : mn ≤ mx) :
    mn ≤ clamp x mn mx ∧ clamp x mn mx ≤ mx := by
  rw [clamp]
  split_ifs with h1 h2 <;> constructor <;> linarith

/-- The saturating u8 cast is the floor on [0, 255]. -/
theorem f32_to_u8_floor (v : ℝ) (h0 : 0 ≤ v) (h1 : v ≤ 255) : f32_to_u8 v = ⌊v⌋ := by
  rw [f32_to_u8, if_neg (not_lt.mpr h0), if_neg (not_lt.mpr h1)]

/-- clamp_to_u8 over [0,1] is the floor of 255 times the clamped channel. -/
theorem clamp_to_u8_floor (x : ℝ) : clamp_to_u8 x 0 1 = ⌊255 * clamp x 0 1⌋ := by
  obtain ⟨h0, h1⟩ := clamp_mem x 0 1 (by norm_num)
  exact f32_to_u8_floor _ (by linarith) (by linarith)

/-- The tone mapper on a colour whose channels lie in [0,1]: no rescale happens and
each channel quantizes directly to the floor of 255 times the channel. -/
theorem tonemap_of_bounded (v : Vec3)
    (h0x : 0 ≤ v.x) (h1x : v.x ≤ 1) (h0y : 0 ≤ v.y) (h1y : v.y ≤ 1)
    (h0z : 0 ≤ v.z) (h1z : v.z ≤ 1) :
    tonemap v = (⌊255 * v.x⌋, ⌊255 * v.y⌋, ⌊255 * v.z⌋) := by
  have hmx : ¬ max v.x (max v.y v.z) > 1 :=
    not_lt.mpr (max_le h1x (max_le h1y h1z))
  simp only [tonemap]
  rw [if_neg hmx, clamp_to_u8_floor, clamp_to_u8_floor, clamp_to_u8_floor,
    clamp_of_mem v.x h0x h1x, clamp_of_mem v.y h0y h1y, clamp_of_mem v.z h0z h1z]

/-- Claim C6: the tone mapper first rescales all channels by 1/max when the largest
channel exceeds 1, and only then clamps to [0,1] and quantizes 255 times the
channel; in particular (2,1,0) maps to (255,127,0), not (255,255,0). -/
theorem tonemap_rescale_then_clamp :
    (∀ v : Vec3, tonemap v = tonemapRescaleClampQuantize v) ∧
    tonemap ⟨2, 1, 0⟩ = (255, 127, 0) ∧
    ((255, 127, 0) : ℤ × ℤ × ℤ) ≠ (255, 255, 0) := by
  refine ⟨?_, ?_, by norm_num⟩
  · intro v
    simp only [tonemap, tonemapRescaleClampQuantize]
    rw [clamp_to_u8_floor, clamp_to_u8_floor, clamp_to_u8_floor]
  · have hmx : max (2:ℝ) (max 1 0) = 2 := by
      have h10 : max (1:ℝ) 0 = 1 := max_eq_left (by norm_num)
      rw [h10]
      exact max_eq_left (by norm_num)
    simp only [tonemap]
    rw [show max (⟨2,1,0⟩ : Vec3).x (max (⟨2,1,0⟩ : Vec3).y (⟨2,1,0⟩ : Vec3).z) = 2 from hmx]
    rw [if_pos (by norm_num : (2:ℝ) > 1)]
    have hw : (⟨2, 1, 0⟩ : Vec3) * ((1:ℝ)/2) = ⟨1, 1/2, 0⟩ := by norm_num
    rw [hw]
    have e1 : clamp_to_u8 (1:ℝ) 0 1 = 255 := by
      rw [clamp_to_u8_floor, clamp_of_mem 1 (by norm_num) (by norm_num)]
      exact floor_eval _ 255 (by norm_num) (by norm_num)
    have e2 : clamp_to_u8 ((1:ℝ)/2) 0 1 = 127 := by
      rw [clamp_to_u8_floor, clamp_of_mem (1/2) (by norm_num) (by norm_num)]
      exact floor_eval _ 127 (by norm_num) (by norm_num)
    have e3 : clamp_to_u8 (0:ℝ) 0 1 = 0 := by
      rw [clamp_to_u8_floor, clamp_of_mem 0 (by norm_num) (by norm_num)]
      exact floor_eval _ 0 (by norm_num) (by norm_num)
    rw [e1, e2, e3]

/-- Claim C9: tone mapping is idempotent on already-bounded colours: with all three
channels in [0,1] the output is the direct quantization of the colour, with no
rescale applied. -/
theorem tonemap_idempotent_on_bounded (v : Vec3)
    (h0x : 0 ≤ v.x) (h1x : v.x ≤ 1) (h0y : 0 ≤ v.y) (h1y : v.y ≤ 1)
    (h0z : 0 ≤ v.z) (h1z : v.z ≤ 1) :
    tonemap v = (⌊255 * v.x⌋, ⌊255 * v.y⌋, ⌊255 * v.z⌋) :=
  tonemap_of_bounded v h0x h1x h0y h1y h0z h1z

/-- Witness for C9 at the bounded colour (1/2, 1, 0). -/
theorem tonemap_idempotent_on_bounded_witness :
    (0 ≤ (1/2:ℝ) ∧ (1/2:ℝ) ≤ 1 ∧ 0 ≤ (1:ℝ) ∧ (1:ℝ) ≤ 1 ∧ 0 ≤ (0:ℝ) ∧ (0:ℝ) ≤ 1) ∧
    tonemap ⟨1/2, 1, 0⟩ = (⌊(255:ℝ) * (1/2)⌋, ⌊(255:ℝ) * 1⌋, ⌊(255:ℝ) * 0⌋) := by
  refine ⟨by norm_num, ?_⟩
  exact tonemap_idempotent_on_bounded ⟨1/2, 1, 0⟩ (by norm_num) (by norm_num)
    (by norm_num) (by norm_num) (by norm_num) (by norm_num)

/-- The empty scene yields no intersection. -/
theorem scene_intersect_nil (r : Ray) : scene_intersect r [] = none := by
  simp [scene_intersect, scene_intersect_loop, not_lt.mpr f32_MAX_big]

/-- Counterexample to C5 as stated: for a ray that misses everything (empty scene)
cast_ray returns none, not the background colour; render, not cast_ray, supplies
the background. -/
theorem cast_ray_miss_background_cex :
    scene_intersect axisRay [] = none ∧
    cast_ray axisRay [] [] = none ∧
    cast_ray axisRay [] [] ≠ some BACKGROUND_COLOUR := by
  have hsi := scene_intersect_nil axisRay
  have hc : cast_ray axisRay [] [] = none := by simp only [cast_ray, hsi]
  exact ⟨hsi, hc, by rw [hc]; simp⟩

/-- Claim C5 (amended): for a ray that misses every sphere cast_ray returns no
colour and render paints the pixel with the tone-mapped background colour, which,
as its channels lie in [0,1], equals the direct quantization (51,178,204) of the
background, untouched by the rescale. -/
theorem render_miss_background (r : Ray) (spheres : List Sphere) (lights : List Light)
    (h : scene_intersect r spheres = none) :
    cast_ray r spheres lights = none ∧
    render_pixel r spheres lights = tonemap BACKGROUND_COLOUR ∧
    tonemap BACKGROUND_COLOUR =
      (⌊255 * BACKGROUND_COLOUR.x⌋, ⌊255 * BACKGROUND_COLOUR.y⌋, ⌊255 * BACKGROUND_COLOUR.z⌋) ∧
    render_pixel r spheres lights = (51, 178, 204) := by
  have hc : cast_ray r spheres lights = none := by simp only [cast_ray, h]
  have hrp : render_pixel r spheres lights = tonemap BACKGROUND_COLOUR := by
    simp only [render_pixel, hc]
  have hbnd := tonemap_of_bounded BACKGROUND_COLOUR
    (by norm_num [BACKGROUND_COLOUR]) (by norm_num [BACKGROUND_COLOUR])
    (by norm_num [BACKGROUND_COLOUR]) (by norm_num [BACKGROUND_COLOUR])
    (by norm_num [BACKGROUND_COLOUR]) (by norm_num [BACKGROUND_COLOUR])
  refine ⟨hc, hrp, hbnd, ?_⟩
  rw [hrp, hbnd]
  have e1 : ⌊255 * BACKGROUND_COLOUR.x⌋ = 51 := by
    rw [show BACKGROUND_COLOUR.x = (1/5 : ℝ) from rfl]
    exact floor_eval _ 51 (by norm_num) (by norm_num)
  have e2 : ⌊255 * BACKGROUND_COLOUR.y⌋ = 178 := by
    rw [show BACKGROUND_COLOUR.y = (7/10 : ℝ) from rfl]
    exact floor_eval _ 178 (by norm_num) (by norm_num)
  have e3 : ⌊255 * BACKGROUND_COLOUR.z⌋ = 204 := by
    rw [show BACKGROUND_COLOUR.z = (4/5 : ℝ) from rfl]
    exact floor_eval _ 204 (by norm_num) (by norm_num)
  rw [e1, e2, e3]

/-- Witness for the amended C5 at the empty scene. -/
theorem render_miss_background_witness :
    scene_intersect axisRay [] = none ∧
    (cast_ray axisRay [] [] = none ∧
     render_pixel axisRay [] [] = tonemap BACKGROUND_COLOUR ∧
     tonemap BACKGROUND_COLOUR =
       (⌊255 * BACKGROUND_COLOUR.x⌋, ⌊255 * BACKGROUND_COLOUR.y⌋, ⌊255 * BACKGROUND_COLOUR.z⌋) ∧
     render_pixel axisRay [] [] = (51, 178, 204)) :=
  ⟨scene_intersect_nil axisRay,
   render_miss_background axisRay [] [] (scene_intersect_nil axisRay)⟩

/-- Claim C7: for positive image height, the primary ray for pixel (i,j) has origin
(0,0,0) and direction normalise (x, y, -1) with x = (2(i+0.5)/W - 1) tan(FOV/2)
(W/H) and y = -(2(j+0.5)/H - 1) tan(FOV/2); the aspect factor W/H multiplies x
only, and for positive tan(FOV/2) the y value strictly decreases with the row
index, making row 0 the top of the image. -/
theorem primary_ray_spec (W H : ℕ) (FOV : ℝ) (i j : ℕ) (hH : 0 < H) :
    primary_ray W H FOV i j =
      ⟨⟨0, 0, 0⟩,
        Vec3.normalise
          ⟨(2 * ((i:ℝ) + 1/2) / (W:ℝ) - 1) * Real.tan (FOV/2) * ((W:ℝ)/(H:ℝ)),
           -(2 * ((j:ℝ) + 1/2) / (H:ℝ) - 1) * Real.tan (FOV/2), -1⟩⟩ ∧
    (∀ j1 j2 : ℕ, j1 < j2 → 0 < Real.tan (FOV/2) →
       pixel_y H FOV j2 < pixel_y H FOV j1) := by
  constructor
  · rw [primary_ray, pixel_x, pixel_y]
    have hx : (2 * ((i:ℝ) + 1/2) / (W:ℝ) - 1) * Real.tan (FOV/2) * (W:ℝ) / (H:ℝ)
        = (2 * ((i:ℝ) + 1/2) / (W:ℝ) - 1) * Real.tan (FOV/2) * ((W:ℝ)/(H:ℝ)) := by
      ring
    rw [hx]
  · intro j1 j2 hj ht
    have hH' : (0:ℝ) < (H:ℝ) := by exact_mod_cast hH
    have hj' : (j1:ℝ) < (j2:ℝ) := by exact_mod_cast hj
    rw [pixel_y, pixel_y]
    have key : 2 * ((j1:ℝ) + 1/2) / (H:ℝ) < 2 * ((j2:ℝ) + 1/2) / (H:ℝ) :=
      (div_lt_div_right hH').mpr (by linarith)
    nlinarith [mul_pos (sub_pos.mpr key) ht]

/-- Witness for C7 at a 4 x 3 image with FOV pi/2: tan(FOV/2) = 1 is positive and
row 1 sits strictly below row 0. -/
theorem primary_ray_spec_witness :
    0 < 3 ∧ (0:ℕ) < 1 ∧ 0 < Real.tan (Real.pi/2/2) ∧
    pixel_y 3 (Real.pi/2) 1 < pixel_y 3 (Real.pi/2) 0 := by
  have htan : Real.tan (Real.pi/2/2) = 1 := by
    rw [show Real.pi/2/2 = Real.pi/4 by ring]
    exact Real.tan_pi_div_four
  have hpos : 0 < Real.tan (Real.pi/2/2) := by rw [htan]; norm_num
  exact ⟨by norm_num, by norm_num, hpos,
    (primary_ray_spec 4 3 (Real.pi/2) 0 0 (by norm_num)).2 0 1 (by norm_num) hpos⟩

end TinyRT
